import Mathlib

/-!
Verification development for the genai-databases-retrieval-app repository.

The Python sources are shallowly embedded: Python dicts become association
lists with Python's lookup/update/delete semantics (`dictGet`, `dictSet`,
`dictRemove`), fallible handlers return explicit error values, and the
stateful session machinery becomes pure state-passing functions.  External
collaborators (the LLM agent loop, the aiohttp transport, the markdown
renderer, pgvector's distance operator) enter as parameters.
-/

namespace RetrievalApp

/-- Python `d[k]` / `k in d` lookup on an association list: the value of the
first binding whose key equals `k` (Python dicts have unique keys, which the
theorems track via `keysNodup`). -/
def dictGet {α : Type} (d : List (String × α)) (k : String) : Option α :=
  match d with
  | [] => none
  | (k2, v) :: rest => if k2 = k then some v else dictGet rest k

/-- Python `d[k] = v`: replace the binding in place if the key exists,
otherwise append a new binding. -/
def dictSet {α : Type} (d : List (String × α)) (k : String) (v : α) :
    List (String × α) :=
  match d with
  | [] => [(k, v)]
  | (k2, v2) :: rest =>
      if k2 = k then (k, v) :: rest else (k2, v2) :: dictSet rest k v

/-- Python `del d[k]`: drop the first binding whose key equals `k`. -/
def dictRemove {α : Type} (d : List (String × α)) (k : String) :
    List (String × α) :=
  match d with
  | [] => []
  | (k2, v2) :: rest =>
      if k2 = k then rest else (k2, v2) :: dictRemove rest k

/-- The keys of the association list are pairwise distinct, as in a Python
dict. -/
def keysNodup {α : Type} (d : List (String × α)) : Prop :=
  (d.map Prod.fst).Nodup

instance {α : Type} (d : List (String × α)) : Decidable (keysNodup d) := by
  unfold keysNodup; infer_instance

/-! ## demo/langchain_tools_demo/tools.py -/

namespace Tools

/-- `filter_none_values(params)`: keep exactly the key-value pairs whose
value is not `None`. Python dict values that may be `None` are embedded as
`Option String`. -/
def filter_none_values (params : List (String × Option String)) :
    List (String × Option String) :=
  params.filter fun p => p.2.isSome

/-- Python's `"http://" in BASE_URL` substring test, on the underlying
character lists. -/
def url_contains_plain_http (base_url : String) : Bool :=
  decide ("http://".data <:+: base_url.data)

/-- `get_headers(client)`: start from the client's headers and add an
`Authorization` bearer header exactly when the base URL does not contain
`"http://"`. The token minted by `get_id_token()` is an external credential
and enters as the parameter `id_token`. -/
def get_headers (base_url : String) (id_token : String)
    (headers : List (String × String)) : List (String × String) :=
  if !url_contains_plain_http base_url then
    dictSet headers "Authorization" ("Bearer " ++ id_token)
  else
    headers

/-- The query parameters `search_airports` passes to `client.get` for the
`/airports/search` endpoint. -/
def search_airports_query_params (country city name : Option String) :
    List (String × Option String) :=
  filter_none_values [("country", country), ("city", city), ("name", name)]

/-- The query parameters `list_flights` passes to `client.get` for the
`/flights/search` endpoint. -/
def list_flights_query_params
    (departure_airport arrival_airport date : Option String) :
    List (String × Option String) :=
  filter_none_values
    [("departure_airport", departure_airport),
     ("arrival_airport", arrival_airport), ("date", date)]

/-- The `"There are no ... matching that query"` message of
`search_airports` / `list_flights` (`kind` is `"airports"` or
`"flights"`). -/
def no_results_msg (kind : String) : String :=
  "There are no " ++ kind ++
    " matching that query. Let the user know there are no results."

/-- The shared tail of `search_airports` and `list_flights`: shape the JSON
list (each element embedded as its Python string rendering `f"{r}"`) into
the returned text. `num = 2` in the source. -/
def format_search_results (kind : String) (response_json : List String) :
    String :=
  if response_json.length < 1 then
    no_results_msg kind
  else if response_json.length > 2 then
    "There are " ++ toString response_json.length ++ " " ++ kind ++
      " matching that query. Here are the first 2 results:\n" ++
      String.intercalate " " (response_json.take 2)
  else
    String.intercalate "\n" response_json

/-- Result shaping of `search_airports` (tools.py lines 82-92). -/
def search_airports_result (response_json : List String) : String :=
  format_search_results "airports" response_json

/-- Result shaping of `list_flights` (tools.py lines 140-150). -/
def list_flights_result (response_json : List String) : String :=
  format_search_results "flights" response_json

end Tools

/-! ## extension_service/datastore/providers/alloydb.py -/

namespace AlloyDB

/-- A row of the `product_embeddings` table.  The numeric SQL values
(vector components, prices, similarities) are only ever combined by
`1 - x` and compared, so they are embedded over an arbitrary linearly
ordered ring `α`. -/
structure EmbeddingRow (α : Type) where
  product_id : String
  content : String
  embedding : List α
deriving DecidableEq

/-- A row of the `products` table. -/
structure ProductRow (α : Type) where
  product_id : String
  product_name : String
  description : String
  list_price : α
deriving DecidableEq

/-- `ORDER BY similarity DESC`: row `a` may precede row `b` when `b`'s
similarity is at most `a`'s. -/
def simOrder {α : Type} [LinearOrder α] (a b : String × α) : Prop :=
  b.2 ≤ a.2

instance {α : Type} [LinearOrder α] : DecidableRel (@simOrder α _) :=
  fun a b => inferInstanceAs (Decidable (b.2 ≤ a.2))

instance {α : Type} [LinearOrder α] : IsTotal (String × α) (@simOrder α _) :=
  ⟨fun a b => le_total b.2 a.2⟩

instance {α : Type} [LinearOrder α] : IsTrans (String × α) (@simOrder α _) :=
  ⟨fun _ _ _ h1 h2 => le_trans h2 h1⟩

/-- The `vector_matches` CTE of `semantic_similiarity_search`: compute
`1 - (embedding <=> $1)` per row, keep the rows strictly above the
threshold, order by similarity descending, limit to `top_k`.  `dist` is
pgvector's external `<=>` cosine-distance operator, abstracted as a
parameter. -/
def vector_matches {α : Type} [LinearOrderedRing α]
    (dist : List α → List α → α)
    (product_embeddings : List (EmbeddingRow α)) (query_embedding : List α)
    (similarity_theshold : α) (top_k : ℕ) : List (String × α) :=
  (List.insertionSort simOrder
    ((product_embeddings.map fun e =>
        (e.product_id, 1 - dist query_embedding e.embedding)).filter
      fun p => similarity_theshold < p.2)).take top_k

/-- `Client.semantic_similiarity_search` (name kept as in the source): the
products whose `product_id` is among the `vector_matches` ids, projected to
`(product_name, list_price, description)` as in the outer SELECT. -/
def semantic_similiarity_search {α : Type} [LinearOrderedRing α]
    (dist : List α → List α → α)
    (product_embeddings : List (EmbeddingRow α))
    (products : List (ProductRow α)) (query_embedding : List α)
    (similarity_theshold : α) (top_k : ℕ) : List (String × α × String) :=
  let vm :=
    vector_matches dist product_embeddings query_embedding
      similarity_theshold top_k
  (products.filter fun p =>
      (vm.map Prod.fst).contains p.product_id).map
    fun p => (p.product_name, p.list_price, p.description)

end AlloyDB

/-! ## langchain_tools_demo: orchestrator and main.py -/

namespace LangChain

/-- A chat turn as stored in the cookie session history
(`{"type": ..., "data": {"content": ...}}`); `parse_messages` maps these
one-to-one onto `HumanMessage`/`AIMessage`. -/
inductive Turn where
  | human : String → Turn
  | ai : String → Turn
deriving DecidableEq

/-- `BASE_HISTORY` of the orchestrator module. -/
def BASE_HISTORY : Turn :=
  Turn.ai "I am an SFO Airport Assistant, ready to assist you."

/-- A `UserAgent`: owns one aiohttp `ClientSession` (identified here by the
numeric id the orchestrator handed out when it opened it) and an agent
executor whose memory was seeded from the session history. -/
structure UserAgent where
  client : ℕ
  history : List Turn
deriving DecidableEq

/-- The cookie-backed Starlette session dict, restricted to the keys the
application touches (`"uuid"`, `"history"`); a `none` field is an absent
key. -/
structure WebSession where
  uuid : Option String
  history : Option (List Turn)
deriving DecidableEq

/-- `LangChainToolsOrchestrator` state: the process-wide `_user_sessions`
dict, plus a ledger for the HTTP clients: ids `< next_client` have been
opened by `create_client_session`, and ids in `closed` have been closed by
`ClientSession.close`. -/
structure OrchState where
  user_sessions : List (String × UserAgent)
  closed : List ℕ
  next_client : ℕ
deriving DecidableEq

/-- `user_session_create(session)`: mint a uuid and seed history if the
session lacks them, open a fresh client, build the agent from the parsed
history, and assign it to `_user_sessions[id]` unconditionally.
`fresh_uuid` stands for the generated `str(uuid.uuid4())`. -/
def user_session_create (st : OrchState) (session : WebSession)
    (fresh_uuid : String) : OrchState × WebSession :=
  let session :=
    if session.uuid.isNone then { session with uuid := some fresh_uuid }
    else session
  let id := session.uuid.getD fresh_uuid
  let session :=
    if session.history.isNone then
      { session with history := some [BASE_HISTORY] }
    else session
  let history := session.history.getD []
  let agent : UserAgent := { client := st.next_client, history := history }
  ({ st with
      user_sessions := dictSet st.user_sessions id agent,
      next_client := st.next_client + 1 },
    session)

/-- `user_session_exist(uuid)`. -/
def user_session_exist (st : OrchState) (uuid : String) : Bool :=
  (dictGet st.user_sessions uuid).isSome

/-- `user_session_reset(uuid)`: `get_user_session` (a `KeyError`, embedded
as `none`, when the id is unknown), then close the agent's client and
delete the map entry. -/
def user_session_reset (st : OrchState) (uuid : String) : Option OrchState :=
  match dictGet st.user_sessions uuid with
  | none => none
  | some ua =>
      some { st with
        closed := ua.client :: st.closed,
        user_sessions := dictRemove st.user_sessions uuid }

/-- The client ids owned by agents currently in the session map. -/
def clientsOf (st : OrchState) : List ℕ :=
  st.user_sessions.map fun p => p.2.client

/-- Well-formedness of the orchestrator state: dict keys are unique, the
agents in the map own pairwise distinct clients, every such client is open
(allocated and not closed), and the ledgers only mention allocated ids. -/
def Inv (st : OrchState) : Prop :=
  keysNodup st.user_sessions ∧
  (clientsOf st).Nodup ∧
  (∀ c ∈ clientsOf st, c ∉ st.closed) ∧
  (∀ c ∈ clientsOf st, c < st.next_client) ∧
  (∀ c ∈ st.closed, c < st.next_client)

instance (st : OrchState) : Decidable (Inv st) := by
  unfold Inv; infer_instance

/-- An HTTP error response (`HTTPException(status_code, detail)`, or the
framework's own `500 Internal Server Error` for an uncaught exception). -/
structure HTTPErr where
  status : ℕ
  detail : String
deriving DecidableEq

/-- `UserAgent.invoke(prompt)`: run the agent executor (whose outcome — a
reply or a raised exception message — enters as `agent_result`) and convert
any exception into an `HTTPException(500, ...)`. -/
def user_agent_invoke (agent_result : Except String String) :
    Except HTTPErr String :=
  match agent_result with
  | .error err => .error ⟨500, "Error invoking agent: " ++ err⟩
  | .ok response => .ok response

/-- `chat_handler` of langchain_tools_demo/main.py: reject an empty prompt
and a session without a uuid with a 400, append the human turn to the
session history (a missing `"history"` key would be a `KeyError`, which the
framework turns into a 500), invoke the agent through the orchestrator
(`agent_found` is whether `get_user_session` finds the uuid; its `KeyError`
again surfaces as the framework 500), then append the assistant turn and
return the `markdown`-rendered output (`md` is the external renderer). -/
def chat_handler (session : WebSession) (prompt : String)
    (agent_found : Bool) (agent_result : Except String String)
    (md : String → String) : WebSession × Except HTTPErr String :=
  if prompt = "" then
    (session, .error ⟨400, "Error: No user query"⟩)
  else if session.uuid.isNone then
    (session, .error ⟨400, "Error: Invoke index handler before start chatting"⟩)
  else
    match session.history with
    | none => (session, .error ⟨500, "Internal Server Error"⟩)
    | some hist =>
        let session :=
          { session with history := some (hist ++ [Turn.human prompt]) }
        if !agent_found then
          (session, .error ⟨500, "Internal Server Error"⟩)
        else
          match user_agent_invoke agent_result with
          | .error e => (session, .error e)
          | .ok output =>
              ({ session with
                  history :=
                    some (hist ++ [Turn.human prompt] ++ [Turn.ai output]) },
                .ok (md output))

end LangChain

/-! ## vertexai_function_calling_demo/main.py -/

namespace Vertex

/-- A chat turn in `session["messages"]` (`{"role": ..., "content": ...}`). -/
structure Msg where
  role : String
  content : String
deriving DecidableEq

/-- `BASE_HISTORY` of the vertexai demo. -/
def BASE_HISTORY : List Msg := [⟨"assistant", "How can I help you?"⟩]

/-- An entry of the module-level `chat_assistants` dict; the assistant built
by `init_chat_assistant` (and its aiohttp client) is opaque and identified
by a numeric id. -/
structure ChatAssistant where
  assistant_id : ℕ
deriving DecidableEq

/-- The cookie session of the vertexai demo (`"uuid"`, `"messages"`). -/
structure VSession where
  uuid : Option String
  messages : Option (List Msg)
deriving DecidableEq

/-- `index(request)`: mint a uuid and seed `messages` when the session is
new, then reuse the existing assistant if the uuid is already a key of
`chat_assistants` and otherwise build and store a fresh one. -/
def index (chat_assistants : List (String × ChatAssistant))
    (session : VSession) (fresh_uuid : String)
    (fresh_assistant : ChatAssistant) :
    List (String × ChatAssistant) × VSession :=
  let session :=
    if session.uuid.isNone then
      { uuid := some fresh_uuid, messages := some BASE_HISTORY }
    else session
  let id := session.uuid.getD fresh_uuid
  if (dictGet chat_assistants id).isSome then (chat_assistants, session)
  else (dictSet chat_assistants id fresh_assistant, session)

/-- `chat_handler` of vertexai_function_calling_demo/main.py: reject an
empty prompt and a session without a uuid with a 400, append the user turn
(`KeyError` on a missing `"messages"` key surfaces as the framework 500),
look the assistant up (`assistant_found`; a `KeyError` again surfaces as
the framework 500), then invoke it — the `try`/`except` turns any raised
exception into an `HTTPException(500, "Error invoking agent: ...")` — and
on success append the assistant turn and return the rendered output. -/
def chat_handler (session : VSession) (prompt : String)
    (assistant_found : Bool) (agent_result : Except String String)
    (md : String → String) : VSession × Except LangChain.HTTPErr String :=
  if prompt = "" then
    (session, .error ⟨400, "Error: No user query"⟩)
  else if session.uuid.isNone then
    (session, .error ⟨400, "Error: Invoke index handler before start chatting"⟩)
  else
    match session.messages with
    | none => (session, .error ⟨500, "Internal Server Error"⟩)
    | some msgs =>
        let session :=
          { session with messages := some (msgs ++ [⟨"user", prompt⟩]) }
        if !assistant_found then
          (session, .error ⟨500, "Internal Server Error"⟩)
        else
          match agent_result with
          | .error err =>
              (session, .error ⟨500, "Error invoking agent: " ++ err⟩)
          | .ok output =>
              ({ session with
                  messages :=
                    some (msgs ++ [⟨"user", prompt⟩] ++
                      [⟨"assistant", output⟩]) },
                .ok (md output))

/-- `reset(request)`: read the session uuid (`KeyError`, i.e. `none`, when
absent), fail with a 500 when the uuid has no assistant entry, otherwise
close the assistant's client, delete the map entry and clear the session.
`none` covers both failure paths. -/
def reset (chat_assistants : List (String × ChatAssistant))
    (session : VSession) :
    Option (List (String × ChatAssistant) × VSession) :=
  match session.uuid with
  | none => none
  | some uuid =>
      if (dictGet chat_assistants uuid).isSome then
        some (dictRemove chat_assistants uuid,
          { uuid := none, messages := none })
      else none

end Vertex

/-! ## Association-list lemmas -/

theorem dictGet_eq_none_of_not_mem_keys {α : Type} {d : List (String × α)}
    {k : String} (h : k ∉ d.map Prod.fst) : dictGet d k = none := by
  induction d with
  | nil => rfl
  | cons p rest ih =>
      obtain ⟨k2, v⟩ := p
      simp only [List.map_cons, List.mem_cons] at h
      push_neg at h
      simp only [dictGet]
      rw [if_neg fun hk => h.1 hk.symm]
      exact ih h.2

theorem mem_of_dictGet_eq_some {α : Type} {d : List (String × α)}
    {k : String} {v : α} (h : dictGet d k = some v) : (k, v) ∈ d := by
  induction d with
  | nil => simp [dictGet] at h
  | cons p rest ih =>
      obtain ⟨k2, v2⟩ := p
      by_cases hk : k2 = k
      · subst hk
        simp only [dictGet, if_true, reduceIte] at h
        rw [Option.some_inj] at h
        subst h; exact List.mem_cons_self _ _
      · simp only [dictGet, if_neg hk] at h
        exact List.mem_cons_of_mem _ (ih h)

theorem dictGet_dictRemove_self {α : Type} {d : List (String × α)}
    (k : String) (h : keysNodup d) : dictGet (dictRemove d k) k = none := by
  induction d with
  | nil => rfl
  | cons p rest ih =>
      obtain ⟨k2, v2⟩ := p
      simp only [keysNodup, List.map_cons, List.nodup_cons] at h
      by_cases hk : k2 = k
      · subst hk
        simp only [dictRemove, if_pos rfl]
        exact dictGet_eq_none_of_not_mem_keys h.1
      · simp only [dictRemove, if_neg hk, dictGet, if_neg hk]
        exact ih h.2

theorem dictRemove_sublist {α : Type} (d : List (String × α)) (k : String) :
    List.Sublist (dictRemove d k) d := by
  induction d with
  | nil => simp [dictRemove]
  | cons p rest ih =>
      obtain ⟨k2, v2⟩ := p
      by_cases hk : k2 = k
      · simp only [dictRemove, if_pos hk]
        exact List.sublist_cons_self _ _
      · simp only [dictRemove, if_neg hk]
        exact ih.cons₂ _

theorem mem_dictSet {α : Type} {d : List (String × α)} {k : String} {v : α}
    {p : String × α} (h : p ∈ dictSet d k v) : p = (k, v) ∨ p ∈ d := by
  induction d with
  | nil => simpa [dictSet] using h
  | cons q rest ih =>
      obtain ⟨k2, v2⟩ := q
      by_cases hk : k2 = k
      · simp only [dictSet, if_pos hk, List.mem_cons] at h
        rcases h with h | h
        · exact Or.inl h
        · exact Or.inr (List.mem_cons_of_mem _ h)
      · simp only [dictSet, if_neg hk, List.mem_cons] at h
        rcases h with h | h
        · exact Or.inr (by simp [h])
        · rcases ih h with h | h
          · exact Or.inl h
          · exact Or.inr (List.mem_cons_of_mem _ h)

theorem dictGet_dictSet_self {α : Type} (d : List (String × α)) (k : String)
    (v : α) : dictGet (dictSet d k v) k = some v := by
  induction d with
  | nil => simp [dictSet, dictGet]
  | cons q rest ih =>
      obtain ⟨k2, v2⟩ := q
      by_cases hk : k2 = k
      · simp [dictSet, if_pos hk, dictGet]
      · simp only [dictSet, if_neg hk, dictGet, if_neg hk]
        exact ih

theorem keysNodup_dictSet {α : Type} {d : List (String × α)} (k : String)
    (v : α) (h : keysNodup d) : keysNodup (dictSet d k v) := by
  induction d with
  | nil => simp [dictSet, keysNodup]
  | cons q rest ih =>
      obtain ⟨k2, v2⟩ := q
      simp only [keysNodup, List.map_cons, List.nodup_cons] at h
      by_cases hk : k2 = k
      · subst hk
        simpa [keysNodup, dictSet] using h
      · have hrest := ih h.2
        simp only [keysNodup, dictSet, if_neg hk, List.map_cons,
          List.nodup_cons]
        refine ⟨fun hmem => ?_, hrest⟩
        rw [List.mem_map] at hmem
        obtain ⟨p, hp, hfst⟩ := hmem
        rcases mem_dictSet hp with rfl | hp
        · exact hk hfst.symm
        · exact h.1 (List.mem_map.mpr ⟨p, hp, hfst⟩)

/-- Mapped-image distinctness survives a `dictSet` whose new value's image
is fresh. -/
theorem nodup_map_dictSet {α β : Type} [DecidableEq β]
    {d : List (String × α)} {k : String} {v : α} (f : String × α → β)
    (hfresh : ∀ p ∈ d, f p ≠ f (k, v)) (h : (d.map f).Nodup) :
    ((dictSet d k v).map f).Nodup := by
  induction d with
  | nil => simp [dictSet]
  | cons q rest ih =>
      obtain ⟨k2, v2⟩ := q
      simp only [List.map_cons, List.nodup_cons] at h
      by_cases hk : k2 = k
      · simp only [dictSet, if_pos hk, List.map_cons, List.nodup_cons]
        refine ⟨fun hmem => ?_, h.2⟩
        rw [List.mem_map] at hmem
        obtain ⟨p, hp, hfp⟩ := hmem
        exact hfresh p (List.mem_cons_of_mem _ hp) hfp
      · simp only [dictSet, if_neg hk, List.map_cons, List.nodup_cons]
        refine ⟨fun hmem => ?_,
          ih (fun p hp => hfresh p (List.mem_cons_of_mem _ hp)) h.2⟩
        rw [List.mem_map] at hmem
        obtain ⟨p, hp, hfp⟩ := hmem
        rcases mem_dictSet hp with rfl | hp
        · exact hfresh (k2, v2) (List.mem_cons_self _ _) hfp.symm
        · exact h.1 (List.mem_map.mpr ⟨p, hp, hfp⟩)

/-- Removing the binding of `k` from a dict with a recorded value `v`
leaves a list that, together with `(k, v)`, is a permutation of the
original dict. -/
theorem dictRemove_perm {α : Type} {d : List (String × α)} {k : String}
    {v : α} (h : dictGet d k = some v) :
    d.Perm ((k, v) :: dictRemove d k) := by
  induction d with
  | nil => simp [dictGet] at h
  | cons q rest ih =>
      obtain ⟨k2, v2⟩ := q
      by_cases hk : k2 = k
      · subst hk
        simp only [dictGet, if_true, reduceIte] at h
        rw [Option.some_inj] at h
        subst h
        simp [dictRemove]
      · simp only [dictGet, if_neg hk] at h
        simp only [dictRemove, if_neg hk]
        exact ((ih h).cons _).trans (List.Perm.swap _ _ _)

/-! ## Shape of the tool result texts -/

theorem format_search_results_shape (kind : String) (l : List String) :
    (l = [] →
      Tools.format_search_results kind l = Tools.no_results_msg kind) ∧
    (2 < l.length →
      Tools.format_search_results kind l =
        "There are " ++ toString l.length ++ " " ++ kind ++
          " matching that query. Here are the first 2 results:\n" ++
          String.intercalate " " (l.take 2)) ∧
    (l ≠ [] → l.length ≤ 2 →
      Tools.format_search_results kind l = String.intercalate "\n" l) := by
  refine ⟨?_, ?_, ?_⟩
  · rintro rfl; rfl
  · intro h
    unfold Tools.format_search_results
    rw [if_neg (by omega), if_pos (by omega)]
  · intro hne hle
    have hpos : 0 < l.length := List.length_pos.mpr hne
    unfold Tools.format_search_results
    rw [if_neg (by omega), if_neg (by omega)]

/-! ## Facts about the similarity query -/

theorem mem_vector_matches {α : Type} [LinearOrderedRing α]
    {dist : List α → List α → α} {emb : List (AlloyDB.EmbeddingRow α)}
    {q : List α} {thr : α} {k : ℕ} {m : String × α}
    (hm : m ∈ AlloyDB.vector_matches dist emb q thr k) :
    (∃ e ∈ emb, m = (e.product_id, 1 - dist q e.embedding)) ∧ thr < m.2 := by
  unfold AlloyDB.vector_matches at hm
  have hs := List.mem_of_mem_take hm
  rw [List.mem_insertionSort, List.mem_filter] at hs
  obtain ⟨hmap, hthr⟩ := hs
  rw [List.mem_map] at hmap
  obtain ⟨e, he, heq⟩ := hmap
  exact ⟨⟨e, he, heq.symm⟩, by simpa using hthr⟩

/-! ## Claim theorems -/

/-- Claim C7: `filter_none_values` returns exactly the key-value pairs
whose values are not `None`, keeping those values unchanged, and therefore
the airport search and the flight listing tools send the downstream REST
service only non-null query parameters. -/
theorem filter_none_values_exact :
    (∀ (params : List (String × Option String)) (k : String)
        (v : Option String),
      (k, v) ∈ Tools.filter_none_values params ↔
        ((k, v) ∈ params ∧ v ≠ none)) ∧
    (∀ (country city name : Option String) (p : String × Option String),
      p ∈ Tools.search_airports_query_params country city name →
        p.2 ≠ none) ∧
    (∀ (departure_airport arrival_airport date : Option String)
        (p : String × Option String),
      p ∈ Tools.list_flights_query_params departure_airport arrival_airport
            date →
        p.2 ≠ none) := by
  refine ⟨?_, ?_, ?_⟩
  · intro params k v
    simp [Tools.filter_none_values, List.mem_filter,
      Option.isSome_iff_ne_none]
  · intro country city name p hp
    simp only [Tools.search_airports_query_params, Tools.filter_none_values,
      List.mem_filter] at hp
    exact Option.isSome_iff_ne_none.mp hp.2
  · intro departure_airport arrival_airport date p hp
    simp only [Tools.list_flights_query_params, Tools.filter_none_values,
      List.mem_filter] at hp
    exact Option.isSome_iff_ne_none.mp hp.2

/-- Witness for claim C7: the airport search parameters built from a
city-only query contain the city pair, and the theorem yields that its
value is non-null. -/
theorem filter_none_values_exact_witness :
    (("city", some "SF") ∈
        Tools.search_airports_query_params none (some "SF") none) ∧
    (("city", (some "SF" : Option String)).2 ≠ none) :=
  ⟨by decide,
    filter_none_values_exact.2.1 none (some "SF") none ("city", some "SF")
      (by decide)⟩

/-- Claim C8: `get_headers` attaches a bearer identity token in the
`Authorization` header if and only if the configured base URL does not
contain the substring `"http://"`; for plain-http base URLs the headers are
returned without an Authorization token being added. -/
theorem get_headers_authorization_iff :
    ∀ (base_url id_token : String) (headers : List (String × String)),
      dictGet headers "Authorization" = none →
      (((dictGet (Tools.get_headers base_url id_token headers)
            "Authorization").isSome) ↔
          Tools.url_contains_plain_http base_url = false) ∧
      (Tools.url_contains_plain_http base_url = false →
        dictGet (Tools.get_headers base_url id_token headers)
            "Authorization" = some ("Bearer " ++ id_token)) ∧
      (Tools.url_contains_plain_http base_url = true →
        Tools.get_headers base_url id_token headers = headers) := by
  intro base_url id_token headers hnone
  cases hc : Tools.url_contains_plain_http base_url
  · have hif : Tools.get_headers base_url id_token headers =
        dictSet headers "Authorization" ("Bearer " ++ id_token) := by
      unfold Tools.get_headers
      rw [hc]
      rfl
    rw [hif]
    refine ⟨⟨fun _ => rfl, fun _ => ?_⟩,
      fun _ => dictGet_dictSet_self _ _ _, fun h => by simp at h⟩
    rw [dictGet_dictSet_self]; rfl
  · have hif : Tools.get_headers base_url id_token headers = headers := by
      unfold Tools.get_headers
      rw [hc]
      rfl
    rw [hif]
    refine ⟨?_, fun h => by simp at h, fun _ => rfl⟩
    rw [hnone]
    simp

/-- Witness for claim C8: an https base URL (no `"http://"` substring) gets
the bearer token attached to empty client headers. -/
theorem get_headers_authorization_iff_witness :
    (dictGet ([] : List (String × String)) "Authorization" = none) ∧
    (Tools.url_contains_plain_http "https://retrieval.example.run" = false) ∧
    (dictGet
        (Tools.get_headers "https://retrieval.example.run" "tok" [])
        "Authorization" = some ("Bearer " ++ "tok")) :=
  ⟨rfl, by decide,
    (get_headers_authorization_iff "https://retrieval.example.run" "tok" []
          rfl).2.1 (by decide)⟩

/-- Claim C10 as frozen is refuted at a concrete input: a nonempty response
list whose single element is the no-results message is echoed back as
exactly that message, so the message is not returned *only* when the list
is empty. -/
theorem search_result_message_on_nonempty_list :
    Tools.search_airports_result [Tools.no_results_msg "airports"] =
      Tools.no_results_msg "airports" ∧
    ([Tools.no_results_msg "airports"] : List String) ≠ [] :=
  ⟨by decide, by decide⟩

/-- Claim C10 (amended): the airport search and flight listing tools return
the `"There are no ... matching that query"` message whenever the response
list is empty; with more than 2 elements they return a text reporting the
total count followed by exactly the first 2 elements in order; with 1 or 2
elements they return all elements joined by newlines (so the no-results
message can coincidentally also be produced by a nonempty list whose join
equals it). -/
theorem search_and_list_result_shape :
    ∀ l : List String,
      (l = [] →
        Tools.search_airports_result l = Tools.no_results_msg "airports" ∧
        Tools.list_flights_result l = Tools.no_results_msg "flights") ∧
      (2 < l.length →
        Tools.search_airports_result l =
          "There are " ++ toString l.length ++ " airports" ++
            " matching that query. Here are the first 2 results:\n" ++
            String.intercalate " " (l.take 2) ∧
        Tools.list_flights_result l =
          "There are " ++ toString l.length ++ " flights" ++
            " matching that query. Here are the first 2 results:\n" ++
            String.intercalate " " (l.take 2)) ∧
      (l ≠ [] → l.length ≤ 2 →
        Tools.search_airports_result l = String.intercalate "\n" l ∧
        Tools.list_flights_result l = String.intercalate "\n" l) := by
  intro l
  obtain ⟨ha1, ha2, ha3⟩ := format_search_results_shape "airports" l
  obtain ⟨hf1, hf2, hf3⟩ := format_search_results_shape "flights" l
  refine ⟨fun h => ⟨ha1 h, hf1 h⟩, fun h => ⟨?_, ?_⟩,
    fun h1 h2 => ⟨ha3 h1 h2, hf3 h1 h2⟩⟩
  · rw [Tools.search_airports_result, ha2 h]
    simp [String.append_assoc]
  · rw [Tools.list_flights_result, hf2 h]
    simp [String.append_assoc]

/-- Witness for claim C10 (amended): the empty response list produces the
two no-results messages. -/
theorem search_and_list_result_shape_witness :
    (([] : List String) = []) ∧
    (Tools.search_airports_result [] = Tools.no_results_msg "airports" ∧
      Tools.list_flights_result [] = Tools.no_results_msg "flights") :=
  ⟨rfl, (search_and_list_result_shape []).1 rfl⟩

/-- Claim C4: every row returned by `semantic_similiarity_search` is the
projection of a product whose id comes from an embedding row with
similarity `1 - dist` strictly above the threshold; the `vector_matches`
rows number at most `top_k`, each is such a qualifying embedding row, and
no qualifying row left out of `vector_matches` has a similarity above any
selected row's (the selected rows are those with the highest
similarity). -/
theorem semantic_search_top_k_sound :
    ∀ {α : Type} [LinearOrderedRing α] (dist : List α → List α → α)
      (emb : List (AlloyDB.EmbeddingRow α))
      (products : List (AlloyDB.ProductRow α)) (q : List α) (thr : α)
      (k : ℕ),
      (∀ r ∈ AlloyDB.semantic_similiarity_search dist emb products q thr k,
        ∃ p ∈ products,
          r = (p.product_name, p.list_price, p.description) ∧
          ∃ e ∈ emb, e.product_id = p.product_id ∧
            thr < 1 - dist q e.embedding) ∧
      (AlloyDB.vector_matches dist emb q thr k).length ≤ k ∧
      (∀ m ∈ AlloyDB.vector_matches dist emb q thr k,
        ∃ e ∈ emb, m = (e.product_id, 1 - dist q e.embedding) ∧
          thr < m.2) ∧
      (∀ m ∈ AlloyDB.vector_matches dist emb q thr k,
        ∀ e ∈ emb, thr < 1 - dist q e.embedding →
          (e.product_id, 1 - dist q e.embedding) ∉
            AlloyDB.vector_matches dist emb q thr k →
          1 - dist q e.embedding ≤ m.2) := by
  intro α inst dist emb products q thr k
  refine ⟨?_, ?_, ?_, ?_⟩
  · intro r hr
    unfold AlloyDB.semantic_similiarity_search at hr
    rw [List.mem_map] at hr
    obtain ⟨p, hp, hproj⟩ := hr
    rw [List.mem_filter] at hp
    obtain ⟨hpmem, hpcont⟩ := hp
    refine ⟨p, hpmem, hproj.symm, ?_⟩
    have hid := List.mem_of_elem_eq_true hpcont
    rw [List.mem_map] at hid
    obtain ⟨m, hm, hm1⟩ := hid
    obtain ⟨⟨e, he, rfl⟩, hthr⟩ := mem_vector_matches hm
    exact ⟨e, he, hm1, hthr⟩
  · exact List.length_take_le _ _
  · intro m hm
    obtain ⟨⟨e, he, rfl⟩, hthr⟩ := mem_vector_matches hm
    exact ⟨e, he, rfl, hthr⟩
  · intro m hm e he hq hnot
    unfold AlloyDB.vector_matches at hm hnot
    have hxf : (e.product_id, 1 - dist q e.embedding) ∈
        (emb.map fun e2 =>
            (e2.product_id, 1 - dist q e2.embedding)).filter
          fun p => thr < p.2 :=
      List.mem_filter.mpr
        ⟨List.mem_map.mpr ⟨e, he, rfl⟩, by simpa using hq⟩
    have hxs : (e.product_id, 1 - dist q e.embedding) ∈
        List.insertionSort AlloyDB.simOrder
          ((emb.map fun e2 =>
              (e2.product_id, 1 - dist q e2.embedding)).filter
            fun p => thr < p.2) :=
      (List.mem_insertionSort _).mpr hxf
    rw [← List.take_append_drop k
      (List.insertionSort AlloyDB.simOrder
        ((emb.map fun e2 =>
            (e2.product_id, 1 - dist q e2.embedding)).filter
          fun p => thr < p.2)), List.mem_append] at hxs
    have hxdrop := hxs.resolve_left hnot
    exact (List.sorted_insertionSort AlloyDB.simOrder
      _).rel_of_mem_take_of_mem_drop hm hxdrop

/-- Witness for claim C4: a one-row embedding table whose product is
returned, with threshold one half and similarity 1 under the constant-zero
distance. -/
theorem semantic_search_top_k_sound_witness :
    (("Toy", (10 : ℤ), "desc") ∈
        AlloyDB.semantic_similiarity_search (fun _ _ => (0 : ℤ))
          [{ product_id := "p1", content := "c", embedding := [] }]
          [{ product_id := "p1", product_name := "Toy",
             description := "desc", list_price := 10 }] ([] : List ℤ) 0 1) ∧
    (∃ p ∈ [({ product_id := "p1", product_name := "Toy",
                description := "desc",
                list_price := 10 } : AlloyDB.ProductRow ℤ)],
      ("Toy", (10 : ℤ), "desc") =
          (p.product_name, p.list_price, p.description) ∧
        ∃ e ∈ [({ product_id := "p1", content := "c",
                   embedding := [] } : AlloyDB.EmbeddingRow ℤ)],
          e.product_id = p.product_id ∧
            (0 : ℤ) < 1 - (fun _ _ => (0 : ℤ)) ([] : List ℤ)
              e.embedding) :=
  ⟨by decide,
    (semantic_search_top_k_sound (fun _ _ => (0 : ℤ))
          [{ product_id := "p1", content := "c", embedding := [] }]
          [{ product_id := "p1", product_name := "Toy",
             description := "desc", list_price := 10 }] ([] : List ℤ) 0 1).1
      ("Toy", (10 : ℤ), "desc") (by decide)⟩

/-! ## Session-map lemmas -/

theorem Inv_after_set {st : LangChain.OrchState} (h : LangChain.Inv st)
    (id : String) (hist : List LangChain.Turn) :
    LangChain.Inv
      { user_sessions :=
          dictSet st.user_sessions id
            { client := st.next_client, history := hist },
        closed := st.closed, next_client := st.next_client + 1 } := by
  obtain ⟨hkeys, hclients, hopen, hlt, hclosedlt⟩ := h
  have hfresh : ∀ p ∈ st.user_sessions,
      (fun q : String × LangChain.UserAgent => q.2.client) p ≠
        (fun q : String × LangChain.UserAgent => q.2.client)
          (id, { client := st.next_client, history := hist }) := by
    intro p hp
    have := hlt p.2.client (List.mem_map.mpr ⟨p, hp, rfl⟩)
    exact fun hc => absurd hc (Nat.ne_of_lt this)
  refine ⟨keysNodup_dictSet _ _ hkeys, ?_, ?_, ?_, ?_⟩
  · exact nodup_map_dictSet _ hfresh hclients
  · intro c hc
    rw [LangChain.clientsOf, List.mem_map] at hc
    obtain ⟨p, hp, rfl⟩ := hc
    rcases mem_dictSet hp with rfl | hp
    · exact fun hmem => absurd (hclosedlt _ hmem) (lt_irrefl _)
    · exact hopen _ (List.mem_map.mpr ⟨p, hp, rfl⟩)
  · intro c hc
    rw [LangChain.clientsOf, List.mem_map] at hc
    obtain ⟨p, hp, rfl⟩ := hc
    rcases mem_dictSet hp with rfl | hp
    · exact Nat.lt_succ_self _
    · exact Nat.lt_succ_of_lt (hlt _ (List.mem_map.mpr ⟨p, hp, rfl⟩))
  · intro c hc
    exact Nat.lt_succ_of_lt (hclosedlt c hc)

theorem Inv_user_session_create {st : LangChain.OrchState}
    (h : LangChain.Inv st) (session : LangChain.WebSession)
    (fresh_uuid : String) :
    LangChain.Inv
      (LangChain.user_session_create st session fresh_uuid).1 :=
  Inv_after_set h _ _

theorem Inv_user_session_reset {st st2 : LangChain.OrchState}
    {uuid : String} (h : LangChain.Inv st)
    (hr : LangChain.user_session_reset st uuid = some st2) :
    LangChain.Inv st2 ∧
    ∃ ua, dictGet st.user_sessions uuid = some ua ∧
      ua.client ∈ st2.closed ∧ dictGet st2.user_sessions uuid = none := by
  obtain ⟨hkeys, hclients, hopen, hlt, hclosedlt⟩ := h
  unfold LangChain.user_session_reset at hr
  cases hget : dictGet st.user_sessions uuid with
  | none => rw [hget] at hr; exact absurd hr (by simp)
  | some ua =>
      rw [hget] at hr
      rw [Option.some_inj] at hr
      subst hr
      have hperm := dictRemove_perm hget
      have hclper :
          (st.user_sessions.map fun p => p.2.client).Perm
            (ua.client ::
              ((dictRemove st.user_sessions uuid).map
                fun p => p.2.client)) := by
        simpa using
          hperm.map (fun p : String × LangChain.UserAgent => p.2.client)
      have hclnodup := hclper.nodup_iff.mp hclients
      rw [List.nodup_cons] at hclnodup
      have hsubcl :
          ∀ c ∈ (dictRemove st.user_sessions uuid).map
              (fun p : String × LangChain.UserAgent => p.2.client),
            c ∈ st.user_sessions.map
              fun p : String × LangChain.UserAgent => p.2.client :=
        fun c hc =>
          ((dictRemove_sublist st.user_sessions uuid).map _).mem hc
      have huain : ua.client ∈ st.user_sessions.map
          fun p : String × LangChain.UserAgent => p.2.client :=
        List.mem_map.mpr ⟨(uuid, ua), mem_of_dictGet_eq_some hget, rfl⟩
      refine ⟨⟨?_, ?_, ?_, ?_, ?_⟩,
        ua, rfl, List.mem_cons_self _ _,
        dictGet_dictRemove_self _ hkeys⟩
      · exact hkeys.sublist
          ((dictRemove_sublist st.user_sessions uuid).map _)
      · exact hclients.sublist
          ((dictRemove_sublist st.user_sessions uuid).map _)
      · intro c hc
        rw [List.mem_cons]
        push_neg
        exact ⟨fun hc2 => hclnodup.1 (hc2 ▸ hc), hopen _ (hsubcl _ hc)⟩
      · intro c hc
        exact hlt _ (hsubcl _ hc)
      · intro c hc
        rw [List.mem_cons] at hc
        rcases hc with rfl | hc
        · exact hlt _ huain
        · exact hclosedlt _ hc

/-! ## Chat handler case lemmas -/

theorem chat_handler_no_400 {session : LangChain.WebSession} {u : String}
    (prompt : String) (agent_found : Bool) (ar : Except String String)
    (md : String → String) (hp : prompt ≠ "")
    (hu : session.uuid = some u) :
    ∀ d, (LangChain.chat_handler session prompt agent_found ar md).2 ≠
      Except.error ⟨400, d⟩ := by
  intro d
  unfold LangChain.chat_handler
  rw [if_neg hp, hu]
  cases hh : session.history with
  | none => simp
  | some hist =>
      cases agent_found with
      | false => simp
      | true =>
          cases ar with
          | error err => simp [LangChain.user_agent_invoke]
          | ok output => simp [LangChain.user_agent_invoke]

theorem vertex_chat_handler_no_400 {session : Vertex.VSession} {u : String}
    (prompt : String) (assistant_found : Bool) (ar : Except String String)
    (md : String → String) (hp : prompt ≠ "")
    (hu : session.uuid = some u) :
    ∀ d, (Vertex.chat_handler session prompt assistant_found ar md).2 ≠
      Except.error ⟨400, d⟩ := by
  intro d
  unfold Vertex.chat_handler
  rw [if_neg hp, hu]
  cases hh : session.messages with
  | none => simp
  | some msgs =>
      cases assistant_found with
      | false => simp
      | true =>
          cases ar with
          | error err => simp
          | ok output => simp

theorem chat_handler_agent_error {session : LangChain.WebSession}
    {u : String} {hist : List LangChain.Turn} (prompt err : String)
    (md : String → String) (hp : prompt ≠ "") (hu : session.uuid = some u)
    (hh : session.history = some hist) :
    LangChain.chat_handler session prompt true (.error err) md =
      ({ session with
          history := some (hist ++ [LangChain.Turn.human prompt]) },
        .error ⟨500, "Error invoking agent: " ++ err⟩) := by
  unfold LangChain.chat_handler
  rw [if_neg hp, hu, hh]
  rfl

theorem vertex_chat_handler_agent_error {session : Vertex.VSession}
    {u : String} {msgs : List Vertex.Msg} (prompt err : String)
    (md : String → String) (hp : prompt ≠ "") (hu : session.uuid = some u)
    (hm : session.messages = some msgs) :
    Vertex.chat_handler session prompt true (.error err) md =
      ({ session with
          messages := some (msgs ++ [⟨"user", prompt⟩]) },
        .error ⟨500, "Error invoking agent: " ++ err⟩) := by
  unfold Vertex.chat_handler
  rw [if_neg hp, hu, hm]
  rfl

/-! ## Claim theorems: sessions -/

/-- Claim C1: for every session identifier present in the active sessions
map, a successful reset for that identifier leaves the identifier absent
from the map (the agent instance is destroyed on reset) — in both the
LangChain orchestrator and the vertexai demo. -/
theorem reset_removes_session_identifier :
    (∀ (st st2 : LangChain.OrchState) (uuid : String),
      keysNodup st.user_sessions →
      LangChain.user_session_reset st uuid = some st2 →
      dictGet st2.user_sessions uuid = none) ∧
    (∀ (chat_assistants out1 : List (String × Vertex.ChatAssistant))
        (session out2 : Vertex.VSession) (u : String),
      keysNodup chat_assistants → session.uuid = some u →
      Vertex.reset chat_assistants session = some (out1, out2) →
      dictGet out1 u = none) := by
  constructor
  · intro st st2 uuid hkeys hr
    unfold LangChain.user_session_reset at hr
    cases hget : dictGet st.user_sessions uuid with
    | none => rw [hget] at hr; exact absurd hr (by simp)
    | some ua =>
        rw [hget] at hr
        rw [Option.some_inj] at hr
        subst hr
        exact dictGet_dictRemove_self _ hkeys
  · intro chat_assistants out1 session out2 u hkeys hu hr
    have hr2 : Vertex.reset chat_assistants session =
        (if (dictGet chat_assistants u).isSome then
          some (dictRemove chat_assistants u,
            ({ uuid := none, messages := none } : Vertex.VSession))
        else none) := by
      unfold Vertex.reset
      rw [hu]
    rw [hr2] at hr
    by_cases hin : (dictGet chat_assistants u).isSome
    · rw [if_pos hin] at hr
      rw [Option.some_inj] at hr
      have h1 : out1 = dictRemove chat_assistants u :=
        (congrArg Prod.fst hr).symm
      rw [h1]
      exact dictGet_dictRemove_self _ hkeys
    · rw [if_neg hin] at hr
      exact absurd hr (by simp)

/-- Witness for claim C1: resetting the only session of a one-entry
orchestrator map removes its identifier. -/
theorem reset_removes_session_identifier_witness :
    keysNodup [("u", ({ client := 0, history := [] } :
        LangChain.UserAgent))] ∧
    LangChain.user_session_reset
        { user_sessions := [("u", { client := 0, history := [] })],
          closed := [], next_client := 1 } "u" =
      some { user_sessions := [], closed := [0], next_client := 1 } ∧
    dictGet ([] : List (String × LangChain.UserAgent)) "u" = none :=
  ⟨by decide, by decide,
    reset_removes_session_identifier.1
      { user_sessions := [("u", { client := 0, history := [] })],
        closed := [], next_client := 1 }
      { user_sessions := [], closed := [0], next_client := 1 } "u"
      (by decide) (by decide)⟩

/-- Claim C2: a /chat request fails with an HTTP 400 error carrying a
textual (nonempty) detail message if and only if the prompt is empty or
the session has no session identifier; with a nonempty prompt and an
existing session identifier neither of the two 400 errors is raised — in
both demos. -/
theorem chat_handler_400_iff :
    ∀ (session : LangChain.WebSession) (vsession : Vertex.VSession)
      (prompt : String) (found : Bool) (ar : Except String String)
      (md : String → String),
      ((∃ d, (LangChain.chat_handler session prompt found ar md).2 =
            Except.error ⟨400, d⟩ ∧ d ≠ "") ↔
        (prompt = "" ∨ session.uuid = none)) ∧
      ((∃ d, (Vertex.chat_handler vsession prompt found ar md).2 =
            Except.error ⟨400, d⟩ ∧ d ≠ "") ↔
        (prompt = "" ∨ vsession.uuid = none)) := by
  intro session vsession prompt found ar md
  constructor
  · by_cases hp : prompt = ""
    · refine ⟨fun _ => Or.inl hp, fun _ => ?_⟩
      refine ⟨"Error: No user query", ?_, by decide⟩
      unfold LangChain.chat_handler
      rw [if_pos hp]
    · cases hu : session.uuid with
      | none =>
          refine ⟨fun _ => Or.inr rfl, fun _ => ?_⟩
          refine ⟨"Error: Invoke index handler before start chatting",
            ?_, by decide⟩
          unfold LangChain.chat_handler
          rw [if_neg hp, hu]
          rfl
      | some u =>
          refine ⟨?_, ?_⟩
          · rintro ⟨d, hd, _⟩
            exact absurd hd (chat_handler_no_400 prompt found ar md hp hu d)
          · rintro (h | h)
            · exact absurd h hp
            · exact absurd h (by simp)
  · by_cases hp : prompt = ""
    · refine ⟨fun _ => Or.inl hp, fun _ => ?_⟩
      refine ⟨"Error: No user query", ?_, by decide⟩
      unfold Vertex.chat_handler
      rw [if_pos hp]
    · cases hu : vsession.uuid with
      | none =>
          refine ⟨fun _ => Or.inr rfl, fun _ => ?_⟩
          refine ⟨"Error: Invoke index handler before start chatting",
            ?_, by decide⟩
          unfold Vertex.chat_handler
          rw [if_neg hp, hu]
          rfl
      | some u =>
          refine ⟨?_, ?_⟩
          · rintro ⟨d, hd, _⟩
            exact absurd hd
              (vertex_chat_handler_no_400 prompt found ar md hp hu d)
          · rintro (h | h)
            · exact absurd h hp
            · exact absurd h (by simp)

/-- Claim C3: an exception raised by the underlying agent call is caught
at the boundary and converted into an HTTP 500 error response carrying a
textual detail; every boundary outcome is either a success (coming from an
agent success) or such a 500 error, so no agent exception propagates
uncaught. -/
theorem agent_exception_converted_to_500 :
    (∀ err, LangChain.user_agent_invoke (Except.error err) =
        Except.error ⟨500, "Error invoking agent: " ++ err⟩) ∧
    (∀ ar : Except String String,
      (∃ out, ar = Except.ok out ∧
        LangChain.user_agent_invoke ar = Except.ok out) ∨
      (∃ d, LangChain.user_agent_invoke ar = Except.error ⟨500, d⟩)) ∧
    (∀ (session : Vertex.VSession) (u : String) (msgs : List Vertex.Msg)
        (prompt err : String) (md : String → String),
      prompt ≠ "" → session.uuid = some u →
      session.messages = some msgs →
      (Vertex.chat_handler session prompt true (Except.error err) md).2 =
        Except.error ⟨500, "Error invoking agent: " ++ err⟩) := by
  refine ⟨fun err => rfl, ?_, ?_⟩
  · intro ar
    cases ar with
    | error err =>
        exact Or.inr ⟨"Error invoking agent: " ++ err, rfl⟩
    | ok out => exact Or.inl ⟨out, rfl, rfl⟩
  · intro session u msgs prompt err md hp hu hm
    rw [vertex_chat_handler_agent_error prompt err md hp hu hm]

/-- Witness for claim C3: a failing agent call inside the vertexai chat
handler surfaces as the 500 `"Error invoking agent: ..."` response. -/
theorem agent_exception_converted_to_500_witness :
    (("hi" : String) ≠ "") ∧
    (({ uuid := some "u", messages := some [] } :
        Vertex.VSession).uuid = some "u") ∧
    (({ uuid := some "u", messages := some [] } :
        Vertex.VSession).messages = some []) ∧
    (Vertex.chat_handler { uuid := some "u", messages := some [] } "hi"
        true (Except.error "boom") id).2 =
      Except.error ⟨500, "Error invoking agent: " ++ "boom"⟩ :=
  ⟨by decide, rfl, rfl,
    agent_exception_converted_to_500.2.2
      { uuid := some "u", messages := some [] } "u" [] "hi" "boom" id
      (by decide) rfl rfl⟩

/-- Claim C5 as frozen is refuted at a concrete input: in the LangChain
orchestrator, a repeat `user_session_create` for a session identifier that
already has a map entry replaces that entry with a freshly built agent
(new client id), so the existing entry does not stay unchanged. -/
theorem index_visit_overwrites_existing_entry :
    dictGet
        (LangChain.user_session_create
            { user_sessions := [("u", { client := 0, history := [] })],
              closed := [], next_client := 1 }
            { uuid := some "u", history := some [] } "f").1.user_sessions
        "u" ≠
      some { client := 0, history := [] } := by decide

/-- Claim C5 (amended): in the vertexai demo, an index visit whose session
identifier already has an assistant entry leaves the `chat_assistants` map
entirely unchanged (entries are added only on the first visit); in the
LangChain demo, every index visit rebuilds the agent and overwrites the
session's map entry with the freshly built one. -/
theorem index_existing_entry_behavior :
    (∀ (chat_assistants : List (String × Vertex.ChatAssistant))
        (session : Vertex.VSession) (u fresh_uuid : String)
        (fresh_assistant : Vertex.ChatAssistant),
      session.uuid = some u → (dictGet chat_assistants u).isSome →
      (Vertex.index chat_assistants session fresh_uuid
          fresh_assistant).1 = chat_assistants) ∧
    (∀ (st : LangChain.OrchState) (session : LangChain.WebSession)
        (u fresh_uuid : String) (hist : List LangChain.Turn),
      session.uuid = some u → session.history = some hist →
      dictGet (LangChain.user_session_create st session
          fresh_uuid).1.user_sessions u =
        some { client := st.next_client, history := hist }) := by
  constructor
  · intro chat_assistants session u fresh_uuid fresh_assistant hu hin
    unfold Vertex.index
    simp only [hu, Option.isNone_some, Bool.false_eq_true, if_false,
      Option.getD_some]
    rw [if_pos hin]
  · intro st session u fresh_uuid hist hu hh
    unfold LangChain.user_session_create
    simp only [hu, hh, Option.isNone_some, Bool.false_eq_true, if_false,
      Option.getD_some]
    exact dictGet_dictSet_self _ _ _

/-- Witness for claim C5 (amended): a vertexai index visit for an id
already in the assistants map returns the map unchanged. -/
theorem index_existing_entry_behavior_witness :
    (({ uuid := some "u", messages := some [] } :
        Vertex.VSession).uuid = some "u") ∧
    ((dictGet [("u", ({ assistant_id := 5 } : Vertex.ChatAssistant))]
        "u").isSome) ∧
    (Vertex.index [("u", { assistant_id := 5 })]
        { uuid := some "u", messages := some [] } "f"
        { assistant_id := 9 }).1 =
      [("u", { assistant_id := 5 })] :=
  ⟨rfl, by decide,
    index_existing_entry_behavior.1
      [("u", { assistant_id := 5 })]
      { uuid := some "u", messages := some [] } "u" "f"
      { assistant_id := 9 } rfl (by decide)⟩

/-- Claim C6: in a well-formed orchestrator state every agent in the
active sessions map owns an open HTTP client (opened and not closed);
`user_session_create` preserves well-formedness, and a successful
`user_session_reset` preserves it while closing the removed agent's client
at the moment of removal, so no agent in the map ever holds a closed
client. -/
theorem session_map_client_invariant :
    ∀ st : LangChain.OrchState, LangChain.Inv st →
      (∀ p ∈ st.user_sessions,
        p.2.client ∉ st.closed ∧ p.2.client < st.next_client) ∧
      (∀ (session : LangChain.WebSession) (fresh_uuid : String),
        LangChain.Inv
          (LangChain.user_session_create st session fresh_uuid).1) ∧
      (∀ (uuid : String) (st2 : LangChain.OrchState),
        LangChain.user_session_reset st uuid = some st2 →
        LangChain.Inv st2 ∧
        ∃ ua, dictGet st.user_sessions uuid = some ua ∧
          ua.client ∈ st2.closed ∧
          dictGet st2.user_sessions uuid = none) := by
  intro st h
  refine ⟨?_, fun session fresh_uuid => Inv_user_session_create h _ _,
    fun uuid st2 hr => Inv_user_session_reset h hr⟩
  intro p hp
  have hmem : p.2.client ∈ LangChain.clientsOf st :=
    List.mem_map.mpr ⟨p, hp, rfl⟩
  exact ⟨h.2.2.1 _ hmem, h.2.2.2.1 _ hmem⟩

/-- Witness for claim C6: the singleton well-formed state; creating a
second session preserves well-formedness. -/
theorem session_map_client_invariant_witness :
    LangChain.Inv
      { user_sessions := [("u", { client := 0, history := [] })],
        closed := [], next_client := 1 } ∧
    LangChain.Inv
      (LangChain.user_session_create
          { user_sessions := [("u", { client := 0, history := [] })],
            closed := [], next_client := 1 }
          { uuid := some "v", history := some [] } "f").1 :=
  ⟨by decide,
    (session_map_client_invariant
        { user_sessions := [("u", { client := 0, history := [] })],
          closed := [], next_client := 1 } (by decide)).2.1
      { uuid := some "v", history := some [] } "f"⟩

/-- Claim C9: when the agent invocation raises, the chat handler returns
an error response, but the session chat history has already been mutated:
the user prompt stays appended as a human/user turn with no corresponding
assistant turn — in both demos the session state is not restored on
error. -/
theorem chat_history_mutated_on_agent_error :
    (∀ (session : LangChain.WebSession) (u : String)
        (hist : List LangChain.Turn) (prompt err : String)
        (md : String → String),
      prompt ≠ "" → session.uuid = some u →
      session.history = some hist →
      LangChain.chat_handler session prompt true (Except.error err) md =
        ({ session with
            history := some (hist ++ [LangChain.Turn.human prompt]) },
          Except.error ⟨500, "Error invoking agent: " ++ err⟩)) ∧
    (∀ (session : Vertex.VSession) (u : String) (msgs : List Vertex.Msg)
        (prompt err : String) (md : String → String),
      prompt ≠ "" → session.uuid = some u →
      session.messages = some msgs →
      Vertex.chat_handler session prompt true (Except.error err) md =
        ({ session with
            messages := some (msgs ++ [⟨"user", prompt⟩]) },
          Except.error ⟨500, "Error invoking agent: " ++ err⟩)) :=
  ⟨fun _ _ _ prompt err md hp hu hh =>
      chat_handler_agent_error prompt err md hp hu hh,
    fun _ _ _ prompt err md hp hu hm =>
      vertex_chat_handler_agent_error prompt err md hp hu hm⟩

/-- Witness for claim C9: a failing agent call leaves the human turn
appended to the LangChain session history, with an error result. -/
theorem chat_history_mutated_on_agent_error_witness :
    (("hi" : String) ≠ "") ∧
    (({ uuid := some "u", history := some [] } :
        LangChain.WebSession).uuid = some "u") ∧
    (({ uuid := some "u", history := some [] } :
        LangChain.WebSession).history = some []) ∧
    LangChain.chat_handler { uuid := some "u", history := some [] } "hi"
        true (Except.error "boom") id =
      ({ uuid := some "u",
          history := some ([] ++ [LangChain.Turn.human "hi"]) },
        Except.error ⟨500, "Error invoking agent: " ++ "boom"⟩) :=
  ⟨by decide, rfl, rfl,
    chat_history_mutated_on_agent_error.1
      { uuid := some "u", history := some [] } "u" [] "hi" "boom" id
      (by decide) rfl rfl⟩

end RetrievalApp
